import Mathlib

set_option maxHeartbeats 1000000

/-
  Shallow embedding of the ProTest acceptance-testing harness (src/AccTest.h).

  The C++ engine is a single-threaded step/scenario orchestrator.  We embed it
  as pure Lean functions: user-supplied lifecycle hooks become explicit
  functions that transform the shared context and the step's mutable state and
  may signal that they threw an exception; the orchestrator (AccTestScenario)
  becomes a function from a scenario state to a run outcome plus an event
  trace.  C++ specifics that matter here and are modelled faithfully:

  * `Act()` is called inside a local try/catch (didThrow), AccTest.h:350-355.
  * `ScenarioSetup` / `StepSetup` are RAII guards, AccTest.h:275-307.  If the
    guard's constructor (i.e. Setup) throws, the destructor does not run.  The
    destructors are implicitly `noexcept`, so an exception thrown by a hook
    invoked from a destructor (scenario Teardown, step Teardown, or the
    fallback Verify) calls std::terminate: the run does not return at all.
    This is the `aborted` outcome below.
  * The report lists are cleared per run (InitializeReport, AccTest.h:315),
    but the steps' own mutable state (m_Passed, m_IsVerified, m_CheckCounter,
    m_CheckOutputs) is never reset by the orchestrator.
  * AccTestSuite::Run, AccTest.h:396 assigns NumberOfPassed to itself, so it
    keeps its zero-initialised value.
-/

namespace ProTest

/-- Mutable run-time state of one AccTestStep (fields m_HasActed, m_IsVerified,
m_Passed, m_CheckCounter, m_CheckOutputs of AccTest.h:189-199).  The check
outputs map int -> string is kept as an association list in ascending key
order, which is the iteration order of the C++ std::map since the counter only
ever grows. -/
structure StepState where
  hasActed : Bool := false
  isVerified : Bool := false
  passed : Bool := false
  checkCounter : Nat := 0
  checkOutputs : List (Nat × String) := []
  deriving DecidableEq, Repr

instance : Inhabited StepState := ⟨{}⟩

/-- AccTestStep::Check (AccTest.h:179-183): the first check ever (counter 0)
establishes the verdict, later checks AND into it; the step is marked
verified; the message is captured under the auto-incremented index. -/
def check (s : StepState) (pred : Bool) (msg : String) : StepState :=
  { s with
    passed := if s.checkCounter > 0 then s.passed && pred else pred
    isVerified := true
    checkOutputs := s.checkOutputs ++ [(s.checkCounter, msg)]
    checkCounter := s.checkCounter + 1 }

/-- A sequence of Check calls, e.g. the body of one Verify() override. -/
def runChecks (s : StepState) (l : List (Bool × String)) : StepState :=
  l.foldl (fun t pm => check t pm.1 pm.2) s

/-- Result of invoking a user hook on a step: either it returns normally or it
throws.  Side effects (on the context and the step state) performed before the
throw persist, hence both constructors carry the updated values. -/
inductive HookRes (C : Type) where
  | ok (ctx : C) (st : StepState)
  | exn (ctx : C) (st : StepState)

/-- A user-overridable step lifecycle hook (Setup/Expect/Act/Verify/Teardown),
acting on the shared context and the step's own state. -/
def Hook (C : Type) : Type := C → StepState → HookRes C

def hookThrew {C : Type} : HookRes C → Bool
  | .ok _ _ => false
  | .exn _ _ => true

def hookCtx {C : Type} : HookRes C → C
  | .ok c _ => c
  | .exn c _ => c

def hookSt {C : Type} : HookRes C → StepState
  | .ok _ s => s
  | .exn _ s => s

/-- One test step: identity and configuration (AccTestStep constructor
arguments) plus its five lifecycle hooks.  The hook defaults are the C++ base
class defaults (AccTest.h:116-132): Act marks acted, Verify does
Check(true) << "All Good", the rest do nothing. -/
structure StepDef (C : Type) where
  name : String
  description : String
  isRequired : Bool := false
  mustThrow : Bool := false
  setup : Hook C := fun c s => .ok c s
  expect : Hook C := fun c s => .ok c s
  act : Hook C := fun c s => .ok c { s with hasActed := true }
  verify : Hook C := fun c s => .ok c (check s true "All Good")
  teardown : Hook C := fun c s => .ok c s

/-- Result of a scenario-level hook (AccTestScenario::Setup/Teardown), which
sees only the context. -/
inductive ScenRes (C : Type) where
  | ok (ctx : C)
  | exn (ctx : C)

/-- AccTestStepReport (AccTest.h:40-53). -/
structure StepReport where
  name : String
  description : String
  checkOutputs : List (Nat × String) := []
  deriving DecidableEq, Repr

/-- AccTestScenarioReport (AccTest.h:58-72). -/
structure ScenarioReport where
  allPassed : Bool := false
  requiredStepFailure : Bool := false
  exceptionInTestProcedure : Bool := false
  numberOfSteps : Nat := 0
  numberOfActed : Nat := 0
  numberOfPassed : Nat := 0
  numberOfFailed : Nat := 0
  numberOfOmitted : Nat := 0
  name : String := "N/A"
  description : String := "N/A"
  omittedSteps : List StepReport := []
  failedSteps : List StepReport := []
  passedSteps : List StepReport := []
  deriving DecidableEq, Repr

/-- AccTestSuiteReport (AccTest.h:76-85). -/
structure SuiteReport where
  allPassed : Bool := false
  numberOfScenarios : Nat := 0
  numberOfPassed : Nat := 0
  numberOfFailed : Nat := 0
  numberOfTerminated : Nat := 0
  passedScenarios : List ScenarioReport := []
  failedScenarios : List ScenarioReport := []
  terminatedScenarios : List ScenarioReport := []
  deriving DecidableEq, Repr

/-- A scenario: name/description, its own Setup/Teardown overrides, and the
ordered list of steps added with AddStep. -/
structure ScenarioDef (C : Type) where
  name : String := "NOT SET"
  description : String := "NOT SET"
  setup : C → ScenRes C := fun c => .ok c
  teardown : C → ScenRes C := fun c => .ok c
  steps : List (StepDef C) := []

/-- Observable events of one run, used to state which hooks were invoked and
in what order.  `setup i` is emitted when step i's Setup completes normally,
`setupThrew i` when it throws (the StepSetup guard constructor threw, so no
destructor runs for it); `scenSetup`/`scenSetupThrew` likewise for the
scenario; all other hook events are emitted at invocation. -/
inductive Ev where
  | scenSetup
  | scenSetupThrew
  | scenTeardown
  | setup (i : Nat)
  | setupThrew (i : Nat)
  | expect (i : Nat)
  | act (i : Nat)
  | verify (i : Nat)
  | teardown (i : Nat)
  | record (i : Nat) (passed : Bool)
  | recordOmit (i : Nat)
  deriving DecidableEq, Repr

/-- How one RunStepUnprotected invocation ended.  `recorded b dt vd` means the
step ran to the recording point (AccTest.h:358-364): `b` is whether it was
recorded as passed, `dt` the local didThrow flag captured around Act, and `vd`
the step's m_Passed as read by step->Passed() right after the explicit
Verify() call.  `escaped` means an exception propagated out of
RunStepUnprotected (to be caught by Run); `aborted` means a hook invoked from
the ~StepSetup destructor threw, which in C++ calls std::terminate. -/
inductive StepExit where
  | recorded (b : Bool) (dt : Bool) (vd : Bool)
  | escaped
  | aborted
  deriving DecidableEq, Repr

/-- Result bundle of RunStepUnprotected: exit mode, updated context and step
state, updated in-progress report (m_Report), and the event trace. -/
structure StepRun (C : Type) where
  exit : StepExit
  ctx : C
  st : StepState
  rep : ScenarioReport
  tr : List Ev

/-- Body of ~StepSetup (AccTest.h:299-303): if the step is not verified,
Verify() is invoked as a fallback, then Teardown() runs.  The destructor is
implicitly noexcept, so a throw from either hook yields `none`
(std::terminate). -/
def stepDtor {C : Type} (step : StepDef C) (i : Nat) (c : C) (s : StepState) :
    Option (C × StepState × List Ev) :=
  if s.isVerified then
    match step.teardown c s with
    | .ok c' s' => some (c', s', [.teardown i])
    | .exn _ _ => none
  else
    match step.verify c s with
    | .ok c' s' =>
      match step.teardown c' s' with
      | .ok c'' s'' => some (c'', s'', [.verify i, .teardown i])
      | .exn _ _ => none
    | .exn _ _ => none

/-- The report update at AccTest.h:358-364: push a passed or a failed step
report (the failed one carries GetCheckOutputs()), and raise the
RequiredStepFailure flag when a required step failed. -/
def recordStep {C : Type} (step : StepDef C) (b : Bool) (s4 : StepState)
    (rep : ScenarioReport) : ScenarioReport :=
  if b then
    { rep with passedSteps := rep.passedSteps ++ [⟨step.name, step.description, []⟩] }
  else
    { rep with
      failedSteps := rep.failedSteps ++ [⟨step.name, step.description, s4.checkOutputs⟩]
      requiredStepFailure := step.isRequired || rep.requiredStepFailure }

/-- AccTest.h:349-364, the part of RunStepUnprotected after the StepSetup
guard construction: Expect already done; Act inside try/catch, the throw
expectation test, the unconditional explicit Verify(), the recording, and the
scope-exit destructor. -/
def runStepRest {C : Type} (step : StepDef C) (i : Nat) (c2 : C) (s2 : StepState)
    (rep : ScenarioReport) : StepRun C :=
  let a := step.act c2 s2
  let didThrow := hookThrew a
  let c3 := hookCtx a
  let s3 := hookSt a
  let passedThrowReq := didThrow == step.mustThrow
  match step.verify c3 s3 with
  | .exn c4 s4 =>
    match stepDtor step i c4 s4 with
    | some (c5, s5, trD) => ⟨.escaped, c5, s5, rep, [.act i, .verify i] ++ trD⟩
    | none => ⟨.aborted, c4, s4, rep, [.act i, .verify i]⟩
  | .ok c4 s4 =>
    let b := passedThrowReq && s4.passed
    let rep' := recordStep step b s4 rep
    match stepDtor step i c4 s4 with
    | some (c5, s5, trD) =>
      ⟨.recorded b didThrow s4.passed, c5, s5, rep', [.act i, .verify i, .record i b] ++ trD⟩
    | none => ⟨.aborted, c4, s4, rep', [.act i, .verify i, .record i b]⟩

/-- AccTestScenario::RunStepUnprotected (AccTest.h:346-365) for the step at
position i.  SetContext is implicit (the context is passed to every hook).
If Setup (the StepSetup constructor) throws, no destructor runs and the
exception escapes at once. -/
def runStepUnprotected {C : Type} (step : StepDef C) (i : Nat) (c : C)
    (s : StepState) (rep : ScenarioReport) : StepRun C :=
  match step.setup c s with
  | .exn c1 s1 => ⟨.escaped, c1, s1, rep, [.setupThrew i]⟩
  | .ok c1 s1 =>
    match step.expect c1 s1 with
    | .exn c2 s2 =>
      match stepDtor step i c2 s2 with
      | some (c3, s3, trD) => ⟨.escaped, c3, s3, rep, [.setup i, .expect i] ++ trD⟩
      | none => ⟨.aborted, c2, s2, rep, [.setup i, .expect i]⟩
    | .ok c2 s2 =>
      let r := runStepRest step i c2 s2 rep
      { r with tr := [.setup i, .expect i] ++ r.tr }

/-- Exit mode of the step loop of RunUnprotected. -/
inductive LoopExit where
  | done
  | escaped
  | aborted
  deriving DecidableEq, Repr

/-- Result bundle of the step loop: exit mode, context, the per-position step
states after the loop, the in-progress report, and the trace. -/
structure LoopRun (C : Type) where
  exit : LoopExit
  ctx : C
  sts : List StepState
  rep : ScenarioReport
  tr : List Ev

/-- The for-loop of AccTestScenario::RunUnprotected (AccTest.h:337-343): once
m_Report.RequiredStepFailure is set, each remaining step only contributes a
name/description entry to OmittedSteps; otherwise the step is executed via
RunStepUnprotected.  An exception escaping a step stops the loop. -/
def runLoop {C : Type} (i : Nat) (c : C) (rep : ScenarioReport) :
    List (StepDef C × StepState) → LoopRun C
  | [] => ⟨.done, c, [], rep, []⟩
  | (step, s) :: rest =>
    if rep.requiredStepFailure then
      let rep' := { rep with
        omittedSteps := rep.omittedSteps ++ [⟨step.name, step.description, []⟩] }
      let r := runLoop (i + 1) c rep' rest
      ⟨r.exit, r.ctx, s :: r.sts, r.rep, .recordOmit i :: r.tr⟩
    else
      let rs := runStepUnprotected step i c s rep
      match rs.exit with
      | .recorded _ _ _ =>
        let r := runLoop (i + 1) rs.ctx rs.rep rest
        ⟨r.exit, r.ctx, rs.st :: r.sts, r.rep, rs.tr ++ r.tr⟩
      | .escaped => ⟨.escaped, rs.ctx, rs.st :: rest.map Prod.snd, rs.rep, rs.tr⟩
      | .aborted => ⟨.aborted, rs.ctx, rs.st :: rest.map Prod.snd, rs.rep, rs.tr⟩

/-- AccTestScenario::UpdateReport (AccTest.h:323-333). -/
def updateReport {C : Type} (scen : ScenarioDef C) (rep : ScenarioReport) :
    ScenarioReport :=
  { rep with
    name := scen.name
    description := scen.description
    numberOfSteps := scen.steps.length
    numberOfPassed := rep.passedSteps.length
    numberOfFailed := rep.failedSteps.length
    numberOfOmitted := rep.omittedSteps.length
    numberOfActed := rep.passedSteps.length + rep.failedSteps.length
    requiredStepFailure := !rep.omittedSteps.isEmpty
    allPassed := rep.passedSteps.length == scen.steps.length }

/-- AccTestScenario::InitializeReport (AccTest.h:315-321): reset the exception
flag, clear the three step lists, then UpdateReport. -/
def initReport {C : Type} (scen : ScenarioDef C) (rep : ScenarioReport) :
    ScenarioReport :=
  updateReport scen
    { rep with
      exceptionInTestProcedure := false
      failedSteps := []
      passedSteps := []
      omittedSteps := [] }

/-- Whole-scenario mutable state: the shared context (m_TestContext), the
steps' mutable states (one per entry of m_Steps, same order), and m_Report. -/
structure ScenState (C : Type) where
  ctx : C
  stepStates : List StepState
  report : ScenarioReport

/-- Outcome of AccTestScenario::Run: either it returns normally (with the new
scenario state, whose report is what GetReport() then yields) or the process
terminated because a destructor-invoked hook threw. -/
inductive RunOut (C : Type) where
  | done (st : ScenState C) (tr : List Ev)
  | aborted (tr : List Ev)

/-- AccTestScenario::Run (AccTest.h:249-257) together with RunUnprotected
(AccTest.h:335-344).  The ScenarioSetup guard: if Setup throws, Teardown does
not run and the exception goes to the catch in Run; otherwise Teardown runs on
every scope exit of RunUnprotected, and a throw from it aborts the process
(noexcept destructor).  The catch in Run sets ExceptionInTestProcedure and
UpdateReport finalises the counts. -/
def run {C : Type} (scen : ScenarioDef C) (st : ScenState C) : RunOut C :=
  let rep0 := initReport scen st.report
  match scen.setup st.ctx with
  | .exn c1 =>
    .done ⟨c1, st.stepStates,
      updateReport scen { rep0 with exceptionInTestProcedure := true }⟩
      [.scenSetupThrew]
  | .ok c1 =>
    let r := runLoop 0 c1 rep0 (scen.steps.zip st.stepStates)
    match r.exit with
    | .done =>
      match scen.teardown r.ctx with
      | .ok c3 =>
        .done ⟨c3, r.sts, updateReport scen r.rep⟩
          (.scenSetup :: r.tr ++ [.scenTeardown])
      | .exn _ => .aborted (.scenSetup :: r.tr)
    | .escaped =>
      match scen.teardown r.ctx with
      | .ok c3 =>
        .done ⟨c3, r.sts,
          updateReport scen { r.rep with exceptionInTestProcedure := true }⟩
          (.scenSetup :: r.tr ++ [.scenTeardown])
      | .exn _ => .aborted (.scenSetup :: r.tr)
    | .aborted => .aborted (.scenSetup :: r.tr)

/-- The scenario state after a completed run (identity if the run aborted,
in which case there is no afterwards at all). -/
def afterRun {C : Type} (scen : ScenarioDef C) (st : ScenState C) : ScenState C :=
  match run scen st with
  | .done st' _ => st'
  | .aborted _ => st

/-- The classification loop of AccTestSuite::Run (AccTest.h:385-394): run each
scenario, fetch its report, and place it in exactly one of the three lists.
`none` when some scenario run aborted the process. -/
def suiteClassify {C : Type} :
    List (ScenarioDef C × ScenState C) →
    Option (List ScenarioReport × List ScenarioReport × List ScenarioReport)
  | [] => some ([], [], [])
  | (scen, st) :: rest =>
    match run scen st with
    | .aborted _ => none
    | .done st' _ =>
      (suiteClassify rest).map fun pft =>
        let r := st'.report
        if r.allPassed then (r :: pft.1, pft.2.1, pft.2.2)
        else if r.numberOfOmitted > 0 then (pft.1, r :: pft.2.1, pft.2.2)
        else (pft.1, pft.2.1, r :: pft.2.2)

/-- AccTestSuite::Run (AccTest.h:383-401).  Note the faithful rendering of
line 396: NumberOfPassed is assigned to itself, so it keeps the
zero-initialised value of AccTestSuiteReport, and line 399 computes AllPassed
from that value. -/
def suiteRun {C : Type} (xs : List (ScenarioDef C × ScenState C)) :
    Option SuiteReport :=
  (suiteClassify xs).map fun pft =>
    let base : SuiteReport :=
      { passedScenarios := pft.1
        terminatedScenarios := pft.2.1
        failedScenarios := pft.2.2 }
    { base with
      numberOfScenarios := xs.length
      numberOfPassed := base.numberOfPassed
      numberOfFailed := base.failedScenarios.length
      numberOfTerminated := base.terminatedScenarios.length
      allPassed := base.numberOfPassed == xs.length }

/-- AccTestRunner::Run (AccTest.h:542-548): run the suite, format the report
(pure output, not modelled), and return NumberOfScenarios - NumberOfPassed as
the process exit code. -/
def runnerRun {C : Type} (xs : List (ScenarioDef C × ScenState C)) : Option Nat :=
  (suiteRun xs).map fun r => r.numberOfScenarios - r.numberOfPassed

/-- The omitted-step trace produced for n consecutive omitted steps starting
at position i. -/
def omitEvents (i : Nat) : Nat → List Ev
  | 0 => []
  | n + 1 => .recordOmit i :: omitEvents (i + 1) n

/-- Check-output entries for a list of messages indexed consecutively from n. -/
def indexFrom (n : Nat) : List String → List (Nat × String)
  | [] => []
  | m :: ms => (n, m) :: indexFrom (n + 1) ms

end ProTest

namespace ProTest

/- ## Concrete scenarios used as witnesses and counterexamples -/

/-- A scenario with no steps and default hooks: everything passes. -/
def pScen : ScenarioDef Unit := { name := "P", description := "p" }

def pInit : ScenState Unit := ⟨(), [], {}⟩

/-- One step which bumps the context in Act and checks ctx = 2 in Verify.
The first run checks 1 = 2 (false); the second run checks 2 = 2 (true), but
the step's check counter is already 1 by then. -/
def cScen : ScenarioDef Nat :=
  { name := "C", description := "c",
    steps := [{ name := "S", description := "d",
                act := fun c s => .ok (c + 1) { s with hasActed := true },
                verify := fun c s => .ok c (check s (c == 2) "m") }] }

def cInit : ScenState Nat := ⟨0, [{}], {}⟩

/-- A scenario whose own Teardown throws. -/
def c4Scen : ScenarioDef Unit :=
  { name := "T", description := "t", teardown := fun c => .exn c }

/-- A scenario with one step whose Teardown throws. -/
def tdScen : ScenarioDef Unit :=
  { name := "TD", description := "td",
    steps := [{ name := "S", description := "d",
                teardown := fun c s => .exn c s }] }

def tdInit : ScenState Unit := ⟨(), [{}], {}⟩

/-- A one-step scenario whose scenario-level Setup throws. -/
def scErr : ScenarioDef Unit :=
  { name := "E", description := "e", setup := fun c => .exn c,
    steps := [{ name := "S", description := "d" }] }

def scErrInit : ScenState Unit := ⟨(), [{}], {}⟩

/-- One step whose Verify always records a failing check. -/
def persistScen : ScenarioDef Unit :=
  { name := "PS", description := "ps",
    steps := [{ name := "S", description := "d",
                verify := fun c s => .ok c (check s false "m") }] }

def perInit : ScenState Unit := ⟨(), [{}], {}⟩

/-- A default step (all base-class hooks). -/
def wStep : StepDef Unit := { name := "W", description := "w" }

/-- The suite report produced for a suite holding the single all-passing
scenario pScen. -/
def bugSuite : SuiteReport := (suiteRun [(pScen, pInit)]).getD {}

/- ## Inversion of RunStepUnprotected at a recording exit -/

/-- If RunStepUnprotected ended at the recording point (AccTest.h:358-364),
the verdict recorded is (didThrow == mustThrow) && step->Passed(), and the
report was updated by exactly one push, through recordStep, using the step
state s4 left by the explicit Verify() call. -/
lemma runStep_recorded_rep {C : Type} {step : StepDef C} {i : Nat} {c : C}
    {s : StepState} {rep : ScenarioReport} {b dt vd : Bool}
    (h : (runStepUnprotected step i c s rep).exit = .recorded b dt vd) :
    b = ((dt == step.mustThrow) && vd)
    ∧ ∃ s4, vd = s4.passed
        ∧ (runStepUnprotected step i c s rep).rep = recordStep step b s4 rep := by
  unfold runStepUnprotected at h ⊢
  rcases hsu : step.setup c s with ⟨c1, s1⟩ | ⟨c1, s1⟩ <;> simp only [hsu] at h ⊢
  · rcases hex : step.expect c1 s1 with ⟨c2, s2⟩ | ⟨c2, s2⟩ <;> simp only [hex] at h ⊢
    · unfold runStepRest at h ⊢
      rcases hv : step.verify (hookCtx (step.act c2 s2)) (hookSt (step.act c2 s2))
        with ⟨c4, s4⟩ | ⟨c4, s4⟩ <;> simp only [hv] at h ⊢
      · rcases hd : stepDtor step i c4 s4 with _ | ⟨⟨c5, s5, trD⟩⟩ <;>
          simp only [hd] at h ⊢
        · exact absurd h (by simp)
        · simp only [StepExit.recorded.injEq] at h
          obtain ⟨hb, hdt, hvd⟩ := h
          subst hb; subst hdt; subst hvd
          exact ⟨rfl, s4, rfl, rfl⟩
      · rcases hd : stepDtor step i c4 s4 with _ | ⟨⟨c5, s5, trD⟩⟩ <;>
          simp only [hd] at h <;> exact absurd h (by simp)
    · rcases hd : stepDtor step i c2 s2 with _ | ⟨⟨c3, s3, trD⟩⟩ <;>
        simp only [hd] at h <;> exact absurd h (by simp)
  · exact absurd h (by simp)

end ProTest

namespace ProTest

/- ## C1: throw-expectation semantics of the recorded verdict -/

/-- C1: for every executed (non-omitted) step that reaches the recording
point, the step is recorded as passed iff (didThrow == mustThrow) and
step->Passed() after the explicit Verify() call; a passed record appends
name/description to PassedSteps, a failed record appends the step report with
its check outputs to FailedSteps and raises RequiredStepFailure for a
required step (AccTest.h:346-365). -/
theorem C1_record_verdict {C : Type} (step : StepDef C) (i : Nat) (c : C)
    (s : StepState) (rep : ScenarioReport) (b dt vd : Bool)
    (h : (runStepUnprotected step i c s rep).exit = .recorded b dt vd) :
    b = ((dt == step.mustThrow) && vd)
    ∧ (b = true → (runStepUnprotected step i c s rep).rep =
        { rep with passedSteps :=
            rep.passedSteps ++ [⟨step.name, step.description, []⟩] })
    ∧ (b = false → ∃ outs, (runStepUnprotected step i c s rep).rep =
        { rep with
          failedSteps := rep.failedSteps ++ [⟨step.name, step.description, outs⟩]
          requiredStepFailure := step.isRequired || rep.requiredStepFailure }) := by
  obtain ⟨hb, s4, hvd, hrep⟩ := runStep_recorded_rep h
  refine ⟨hb, ?_, ?_⟩
  · intro hbt
    rw [hrep, recordStep, hbt]
    simp
  · intro hbf
    rw [hrep, recordStep, hbf]
    exact ⟨s4.checkOutputs, by simp⟩

/-- Witness for C1 at a fully default step: the default Verify checks true,
Act does not throw, mustThrow is false, so the step is recorded passed. -/
theorem C1_record_verdict_witness :
    (true = ((false == wStep.mustThrow) && true))
    ∧ (true = true → (runStepUnprotected wStep 0 () {} {}).rep =
        { ({} : ScenarioReport) with passedSteps :=
            ([] : List StepReport) ++ [⟨wStep.name, wStep.description, []⟩] })
    ∧ (true = false → ∃ outs, (runStepUnprotected wStep 0 () {} {}).rep =
        { ({} : ScenarioReport) with
          failedSteps := ([] : List StepReport) ++ [⟨wStep.name, wStep.description, outs⟩]
          requiredStepFailure := wStep.isRequired || false }) :=
  C1_record_verdict wStep 0 () {} {} true false true rfl

end ProTest

namespace ProTest

/- ## C5: semantics of a sequence of Check calls -/

/-- C5 (counterexample to the claim as stated): the claim says that after the
Check calls of one Verify() invocation the step's passed flag equals the AND
of the predicates checked in that invocation.  Because Check keys on the
step's lifetime counter (AccTest.h:180), not on the invocation, this fails as
soon as a check preceded the invocation: run cScen twice; the single check of
the second run's Verify() has predicate (2 == 2) = true, yet the step's passed
flag (and its recorded verdict) stays false, carried over from the first run.
The first conjunct refutes the claim on the very step state the second run's
Verify() receives. -/
theorem C5_counterexample :
    (runChecks ((afterRun cScen cInit).stepStates.headI) [(true, "m")]).passed = false
    ∧ [((true : Bool), "m")].all Prod.fst = true
    ∧ (afterRun cScen (afterRun cScen cInit)).stepStates.headI.passed = false
    ∧ (afterRun cScen (afterRun cScen cInit)).ctx = 2
    ∧ (afterRun cScen (afterRun cScen cInit)).report.failedSteps =
        [⟨"S", "d", [(0, "m"), (1, "m")]⟩] := by
  refine ⟨rfl, rfl, rfl, rfl, rfl⟩

/-- C5 (amended): after the Check(p1) ... Check(pk) calls of one Verify()
invocation (k >= 1) the step's passed flag is p1 && ... && pk when no check
preceded the invocation (check counter 0 at entry) and otherwise the
pre-existing verdict ANDed with p1 && ... && pk; the step is marked verified;
the messages are all captured, keyed consecutively from the entry counter. -/
theorem C5_check_accumulation (s : StepState) (l : List (Bool × String))
    (h : l ≠ []) :
    (runChecks s l).passed
      = ((if s.checkCounter = 0 then true else s.passed) && l.all Prod.fst)
    ∧ (runChecks s l).isVerified = true
    ∧ (runChecks s l).checkCounter = s.checkCounter + l.length
    ∧ (runChecks s l).checkOutputs
      = s.checkOutputs ++ indexFrom s.checkCounter (l.map Prod.snd) := by
  induction l generalizing s with
  | nil => exact absurd rfl h
  | cons p rest ih =>
    rcases rest with _ | ⟨q, rest⟩
    · simp only [runChecks, List.foldl, check, List.all_cons, List.all_nil,
        List.map, indexFrom]
      refine ⟨?_, by trivial, by trivial, by trivial⟩
      rcases Nat.eq_zero_or_pos s.checkCounter with h0 | h0
      · simp [h0]
      · have : ¬ s.checkCounter = 0 := Nat.pos_iff_ne_zero.mp h0
        simp [this, Nat.pos_iff_ne_zero.mpr this, h0]
    · have hne : (q :: rest) ≠ ([] : List (Bool × String)) := by simp
      have hstep : runChecks s (p :: q :: rest)
          = runChecks (check s p.1 p.2) (q :: rest) := rfl
      obtain ⟨ih1, ih2, ih3, ih4⟩ := ih (check s p.1 p.2) hne
      have hcnt : (check s p.1 p.2).checkCounter = s.checkCounter + 1 := rfl
      refine ⟨?_, ?_, ?_, ?_⟩
      · rw [hstep, ih1, hcnt]
        simp only [Nat.succ_ne_zero, if_false]
        have hpassed : (check s p.1 p.2).passed
            = (if s.checkCounter > 0 then s.passed && p.1 else p.1) := rfl
        rw [hpassed, List.all_cons]
        rcases Nat.eq_zero_or_pos s.checkCounter with h0 | h0
        · simp [h0, Bool.and_assoc]
        · have : ¬ s.checkCounter = 0 := Nat.pos_iff_ne_zero.mp h0
          simp [this, h0, Bool.and_assoc]
      · rw [hstep, ih2]
      · rw [hstep, ih3, hcnt]
        simp [List.length_cons]
        omega
      · rw [hstep, ih4, hcnt]
        have houts : (check s p.1 p.2).checkOutputs
            = s.checkOutputs ++ [(s.checkCounter, p.2)] := rfl
        rw [houts, List.append_assoc]
        simp [indexFrom]

/-- Witness for C5_check_accumulation at a fresh state and two checks. -/
theorem C5_check_accumulation_witness :
    ((runChecks {} [(true, "x"), (false, "y")]).passed
      = ((if ({} : StepState).checkCounter = 0 then true else ({} : StepState).passed)
          && [((true : Bool), "x"), (false, "y")].all Prod.fst)
    ∧ (runChecks {} [(true, "x"), (false, "y")]).isVerified = true
    ∧ (runChecks {} [(true, "x"), (false, "y")]).checkCounter
      = ({} : StepState).checkCounter + [((true : Bool), "x"), (false, "y")].length
    ∧ (runChecks {} [(true, "x"), (false, "y")]).checkOutputs
      = ({} : StepState).checkOutputs
        ++ indexFrom ({} : StepState).checkCounter
             ([((true : Bool), "x"), (false, "y")].map Prod.snd)) :=
  C5_check_accumulation {} [(true, "x"), (false, "y")] (by simp)

end ProTest

namespace ProTest

/- ## C7: suite classification and aggregate counts -/

/-- C7: the classification into the three lists is as the claim says, but the
aggregate counts are broken by the self-assignment at AccTest.h:396
(suiteReport.NumberOfPassed = suiteReport.NumberOfPassed), which leaves
NumberOfPassed at its zero initialiser.  Evaluated at a suite holding one
all-passing scenario: the scenario report lands in PassedScenarios, yet
NumberOfPassed = 0, so NumberOfScenarios = 1 differs from
NumberOfPassed + NumberOfFailed + NumberOfTerminated = 0 and AllPassed is
false although every scenario passed. -/
theorem C7_suite_counts_bug :
    suiteRun [(pScen, pInit)] = some bugSuite
    ∧ bugSuite.passedScenarios.length = 1
    ∧ bugSuite.failedScenarios.length = 0
    ∧ bugSuite.terminatedScenarios.length = 0
    ∧ bugSuite.numberOfScenarios = 1
    ∧ bugSuite.numberOfPassed = 0
    ∧ bugSuite.numberOfFailed = 0
    ∧ bugSuite.numberOfTerminated = 0
    ∧ bugSuite.allPassed = false
    ∧ bugSuite.numberOfScenarios
        ≠ bugSuite.numberOfPassed + bugSuite.numberOfFailed + bugSuite.numberOfTerminated := by
  refine ⟨rfl, rfl, rfl, rfl, rfl, rfl, rfl, rfl, rfl, by decide⟩

/- ## C8: process exit code -/

/-- C8 (counterexample to the claim as stated): the entry-point helper
(AccTestRunner::Run, AccTest.h:547) returns
NumberOfScenarios - NumberOfPassed.  For a suite whose single scenario passes
every step the exit code is 1, not 0, so exit code 0 does not mean all
scenarios passed; nor does any distinguished code exist for required-step
omission. -/
theorem C8_counterexample :
    runnerRun [(pScen, pInit)] = some 1
    ∧ bugSuite.passedScenarios.length = bugSuite.numberOfScenarios := by
  exact ⟨rfl, rfl⟩

/-- C8 (amended): the exit code is NumberOfScenarios - NumberOfPassed, and
because NumberOfPassed is never filled in (AccTest.h:396) it always equals the
total number of scenarios in the suite; in particular it is 0 iff the suite is
empty, and it distinguishes neither required-step omission nor ordinary
failure. -/
theorem C8_exit_code (C : Type) (xs : List (ScenarioDef C × ScenState C))
    (e : Nat) (h : runnerRun xs = some e) : e = xs.length := by
  unfold runnerRun suiteRun at h
  rcases hc : suiteClassify xs with _ | ⟨⟨p, t, f⟩⟩ <;> rw [hc] at h
  · simp at h
  · simp only [Option.map_some] at h
    obtain rfl := (Option.some.injEq _ _).mp h.symm
    rfl

/-- Witness for C8_exit_code at the one-passing-scenario suite. -/
theorem C8_exit_code_witness : (1 : Nat) = [(pScen, pInit)].length :=
  C8_exit_code Unit [(pScen, pInit)] 1 rfl

end ProTest

namespace ProTest

/- ## C2: required-step failure omits all remaining steps -/

/-- Once m_Report.RequiredStepFailure is set, every remaining loop iteration
(AccTest.h:338-341) only appends a name/description step report to
OmittedSteps: context and step states are untouched and no lifecycle hook of
any remaining step is invoked (the trace holds only recordOmit events). -/
lemma runLoop_omit {C : Type} (l : List (StepDef C × StepState)) (i : Nat)
    (c : C) (rep : ScenarioReport) (h : rep.requiredStepFailure = true) :
    runLoop i c rep l =
      ⟨.done, c, l.map Prod.snd,
        { rep with omittedSteps :=
            rep.omittedSteps ++ l.map (fun p => ⟨p.1.name, p.1.description, []⟩) },
        omitEvents i l.length⟩ := by
  induction l generalizing i rep with
  | nil => simp [runLoop, omitEvents]
  | cons p rest ih =>
    obtain ⟨step, s⟩ := p
    simp only [runLoop, h, if_true]
    rw [ih (i + 1)
      { rep with
        requiredStepFailure := true
        omittedSteps := rep.omittedSteps ++ [⟨step.name, step.description, []⟩] } rfl]
    simp [omitEvents, List.append_assoc]

/-- A failed recording of a required step raises RequiredStepFailure
(AccTest.h:362-363). -/
lemma runStep_failed_required_flag {C : Type} {step : StepDef C} {i : Nat}
    {c : C} {s : StepState} {rep : ScenarioReport} {dt vd : Bool}
    (hreq : step.isRequired = true)
    (h : (runStepUnprotected step i c s rep).exit = .recorded false dt vd) :
    (runStepUnprotected step i c s rep).rep.requiredStepFailure = true := by
  obtain ⟨-, s4, -, hrep⟩ := runStep_recorded_rep h
  rw [hrep, recordStep]
  simp [hreq]

/-- C2: if the executed step at position i is required and is recorded as
failed, the loop finishes by recording every remaining step in the omitted
list, in original order and with only name and description in each omitted
report; the context and the remaining steps' states are exactly those left by
step i, and the tail of the trace consists solely of recordOmit events, i.e.
no lifecycle hook of any omitted step is invoked. -/
theorem C2_required_failure_omits {C : Type} (step : StepDef C) (s : StepState)
    (rest : List (StepDef C × StepState)) (i : Nat) (c : C)
    (rep : ScenarioReport) (hflag : rep.requiredStepFailure = false)
    (hreq : step.isRequired = true) (dt vd : Bool)
    (hfail : (runStepUnprotected step i c s rep).exit = .recorded false dt vd) :
    runLoop i c rep ((step, s) :: rest) =
      ⟨.done, (runStepUnprotected step i c s rep).ctx,
        (runStepUnprotected step i c s rep).st :: rest.map Prod.snd,
        { (runStepUnprotected step i c s rep).rep with
          omittedSteps := (runStepUnprotected step i c s rep).rep.omittedSteps
            ++ rest.map (fun p => ⟨p.1.name, p.1.description, []⟩) },
        (runStepUnprotected step i c s rep).tr ++ omitEvents (i + 1) rest.length⟩ := by
  simp only [runLoop, hflag, Bool.false_eq_true, if_false, hfail]
  rw [runLoop_omit rest (i + 1) (runStepUnprotected step i c s rep).ctx
    (runStepUnprotected step i c s rep).rep
    (runStep_failed_required_flag hreq hfail)]

/-- A required step whose single check fails. -/
def aStep : StepDef Unit :=
  { name := "A", description := "a", isRequired := true,
    verify := fun c s => .ok c (check s false "bad") }

/-- A default non-required step. -/
def bStep : StepDef Unit := { name := "B", description := "b" }

/-- Witness for C2 at the concrete pair [A(required, fails), B]. -/
theorem C2_required_failure_omits_witness :
    runLoop 0 () ({} : ScenarioReport) [(aStep, {}), (bStep, {})] =
      ⟨.done, (runStepUnprotected aStep 0 () {} {}).ctx,
        (runStepUnprotected aStep 0 () {} {}).st
          :: [(bStep, ({} : StepState))].map Prod.snd,
        { (runStepUnprotected aStep 0 () {} {}).rep with
          omittedSteps := (runStepUnprotected aStep 0 () {} {}).rep.omittedSteps
            ++ [(bStep, ({} : StepState))].map
                 (fun p => ⟨p.1.name, p.1.description, []⟩) },
        (runStepUnprotected aStep 0 () {} {}).tr
          ++ omitEvents (0 + 1) [(bStep, ({} : StepState))].length⟩ :=
  C2_required_failure_omits aStep {} [(bStep, {})] 0 () {} rfl rfl false false rfl

end ProTest

namespace ProTest

/- ## C3: aggregate count invariants of the scenario report -/

/-- Every recording exit of RunStepUnprotected grows the union of the three
step lists by exactly one entry. -/
lemma runStep_recorded_counts {C : Type} {step : StepDef C} {i : Nat} {c : C}
    {s : StepState} {rep : ScenarioReport} {b dt vd : Bool}
    (h : (runStepUnprotected step i c s rep).exit = .recorded b dt vd) :
    (runStepUnprotected step i c s rep).rep.passedSteps.length
      + (runStepUnprotected step i c s rep).rep.failedSteps.length
      + (runStepUnprotected step i c s rep).rep.omittedSteps.length
    = rep.passedSteps.length + rep.failedSteps.length
      + rep.omittedSteps.length + 1 := by
  obtain ⟨-, s4, -, hrep⟩ := runStep_recorded_rep h
  rw [hrep, recordStep]
  cases b <;> simp <;> omega

/-- If the step loop runs to completion, each of the n steps contributed
exactly one entry to PassedSteps, FailedSteps or OmittedSteps. -/
lemma runLoop_done_counts {C : Type} (l : List (StepDef C × StepState))
    (i : Nat) (c : C) (rep : ScenarioReport)
    (h : (runLoop i c rep l).exit = .done) :
    (runLoop i c rep l).rep.passedSteps.length
      + (runLoop i c rep l).rep.failedSteps.length
      + (runLoop i c rep l).rep.omittedSteps.length
    = rep.passedSteps.length + rep.failedSteps.length
      + rep.omittedSteps.length + l.length := by
  induction l generalizing i c rep with
  | nil => simp [runLoop]
  | cons p rest ih =>
    obtain ⟨step, s⟩ := p
    by_cases hf : rep.requiredStepFailure = true
    · rw [runLoop_omit ((step, s) :: rest) i c rep hf]
      simp
      omega
    · have hf' : rep.requiredStepFailure = false := by
        rwa [Bool.not_eq_true] at hf
      simp only [runLoop, hf', Bool.false_eq_true, if_false] at h ⊢
      rcases hex : (runStepUnprotected step i c s rep).exit with ⟨b, dt, vd⟩ | _ | _ <;>
        simp only [hex] at h ⊢
      · have hstep := runStep_recorded_counts hex
        have hrest := ih (i + 1) (runStepUnprotected step i c s rep).ctx
          (runStepUnprotected step i c s rep).rep h
        simp only [List.length_cons]
        omega
      · exact absurd h (by simp)
      · exact absurd h (by simp)

/-- UpdateReport (AccTest.h:330) always computes NumberOfActed as
NumberOfPassed + NumberOfFailed. -/
lemma updateReport_acted {C : Type} (scen : ScenarioDef C) (rep : ScenarioReport) :
    (updateReport scen rep).numberOfActed
      = (updateReport scen rep).numberOfPassed
        + (updateReport scen rep).numberOfFailed := rfl

/-- C3 (counterexample to the claim as stated): the claim extends
totalSteps = passed + failed + omitted to runs in which an exception escaped.
In a run of a one-step scenario whose scenario-level Setup throws, no step is
ever processed, yet UpdateReport (AccTest.h:326) still sets NumberOfSteps to
m_Steps.size() = 1, so 1 = NumberOfSteps differs from
NumberOfPassed + NumberOfFailed + NumberOfOmitted = 0. -/
theorem C3_counterexample :
    (afterRun scErr scErrInit).report.numberOfSteps = 1
    ∧ (afterRun scErr scErrInit).report.numberOfPassed = 0
    ∧ (afterRun scErr scErrInit).report.numberOfFailed = 0
    ∧ (afterRun scErr scErrInit).report.numberOfOmitted = 0
    ∧ (afterRun scErr scErrInit).report.exceptionInTestProcedure = true
    ∧ (afterRun scErr scErrInit).report.numberOfSteps
        ≠ (afterRun scErr scErrInit).report.numberOfPassed
          + (afterRun scErr scErrInit).report.numberOfFailed
          + (afterRun scErr scErrInit).report.numberOfOmitted
    ∧ run scErr scErrInit = .done (afterRun scErr scErrInit) [.scenSetupThrew] :=
  ⟨rfl, rfl, rfl, rfl, rfl, by decide, rfl⟩

/-- C3 (amended): in every completed run, acted = passed + failed holds
unconditionally, and totalSteps = passed + failed + omitted holds whenever no
exception escaped the test procedure (ExceptionInTestProcedure = false); in
exceptional runs NumberOfSteps still counts all steps of the scenario while
the three lists only cover the steps processed before the exception. -/
theorem C3_count_invariants {C : Type} (scen : ScenarioDef C)
    (st : ScenState C) (st' : ScenState C) (tr : List Ev)
    (hlen : st.stepStates.length = scen.steps.length)
    (h : run scen st = .done st' tr) :
    st'.report.numberOfActed
      = st'.report.numberOfPassed + st'.report.numberOfFailed
    ∧ (st'.report.exceptionInTestProcedure = false →
        st'.report.numberOfSteps
          = st'.report.numberOfPassed + st'.report.numberOfFailed
            + st'.report.numberOfOmitted) := by
  unfold run at h
  rcases hsu : scen.setup st.ctx with ⟨c1⟩ | ⟨c1⟩ <;> simp only [hsu] at h
  · rcases hle : (runLoop 0 c1 (initReport scen st.report)
        (scen.steps.zip st.stepStates)).exit with _ | _ | _ <;>
      simp only [hle] at h
    · rcases htd : scen.teardown (runLoop 0 c1 (initReport scen st.report)
          (scen.steps.zip st.stepStates)).ctx with ⟨c3⟩ | ⟨c3⟩ <;>
        simp only [htd] at h
      · injection h with h1 h2
        subst h1
        refine ⟨updateReport_acted scen _, fun _ => ?_⟩
        have hcount := runLoop_done_counts (scen.steps.zip st.stepStates) 0 c1
          (initReport scen st.report) hle
        have hzip : (scen.steps.zip st.stepStates).length = scen.steps.length := by
          rw [List.length_zip, hlen, Nat.min_self]
        show scen.steps.length
          = (runLoop 0 c1 (initReport scen st.report)
              (scen.steps.zip st.stepStates)).rep.passedSteps.length
            + (runLoop 0 c1 (initReport scen st.report)
                (scen.steps.zip st.stepStates)).rep.failedSteps.length
            + (runLoop 0 c1 (initReport scen st.report)
                (scen.steps.zip st.stepStates)).rep.omittedSteps.length
        have hinit : (initReport scen st.report).passedSteps.length
            + (initReport scen st.report).failedSteps.length
            + (initReport scen st.report).omittedSteps.length = 0 := rfl
        omega
      · exact RunOut.noConfusion h
    · rcases htd : scen.teardown (runLoop 0 c1 (initReport scen st.report)
          (scen.steps.zip st.stepStates)).ctx with ⟨c3⟩ | ⟨c3⟩ <;>
        simp only [htd] at h
      · injection h with h1 h2
        subst h1
        refine ⟨updateReport_acted scen _, fun hx => absurd hx (by simp [updateReport])⟩
      · exact RunOut.noConfusion h
    · exact RunOut.noConfusion h
  · injection h with h1 h2
    subst h1
    refine ⟨updateReport_acted scen _, fun hx => absurd hx (by simp [updateReport])⟩

/-- Witness for C3 at the empty all-passing scenario. -/
theorem C3_count_invariants_witness :
    (afterRun pScen pInit).report.numberOfActed
      = (afterRun pScen pInit).report.numberOfPassed
        + (afterRun pScen pInit).report.numberOfFailed
    ∧ ((afterRun pScen pInit).report.exceptionInTestProcedure = false →
        (afterRun pScen pInit).report.numberOfSteps
          = (afterRun pScen pInit).report.numberOfPassed
            + (afterRun pScen pInit).report.numberOfFailed
            + (afterRun pScen pInit).report.numberOfOmitted) :=
  C3_count_invariants pScen pInit (afterRun pScen pInit)
    [.scenSetup, .scenTeardown] rfl rfl

end ProTest

namespace ProTest

/- ## C4: Run never raises (up to destructor-invoked hooks) -/

/-- A step hook that never throws. -/
def NeverThrows {C : Type} (h : Hook C) : Prop :=
  ∀ c s, ∃ c' s', h c s = .ok c' s'

/-- A scenario-level hook that never throws. -/
def ScenNeverThrows {C : Type} (f : C → ScenRes C) : Prop :=
  ∀ c, ∃ c', f c = .ok c'

/-- If the step's Verify and Teardown hooks never throw, the ~StepSetup
destructor body completes, invoking Verify as a fallback exactly when the
step is not verified at scope exit and then Teardown. -/
lemma stepDtor_some {C : Type} {step : StepDef C}
    (hv : NeverThrows step.verify) (ht : NeverThrows step.teardown)
    (i : Nat) (c : C) (s : StepState) :
    ∃ c' s' trD, stepDtor step i c s = some (c', s', trD)
      ∧ trD = (if s.isVerified then [Ev.teardown i] else [Ev.verify i, Ev.teardown i]) := by
  unfold stepDtor
  cases hiv : s.isVerified
  · obtain ⟨cv, sv, hv'⟩ := hv c s
    obtain ⟨ct, st2, ht'⟩ := ht cv sv
    refine ⟨ct, st2, [Ev.verify i, Ev.teardown i], ?_, by simp [hiv]⟩
    simp [hiv, hv', ht']
  · obtain ⟨ct, st2, ht'⟩ := ht c s
    refine ⟨ct, st2, [Ev.teardown i], ?_, by simp [hiv]⟩
    simp [hiv, ht']

/-- Under the same proviso a step execution never aborts the process. -/
lemma runStep_noAbort {C : Type} {step : StepDef C}
    (hv : NeverThrows step.verify) (ht : NeverThrows step.teardown)
    (i : Nat) (c : C) (s : StepState) (rep : ScenarioReport) :
    (runStepUnprotected step i c s rep).exit ≠ .aborted := by
  unfold runStepUnprotected
  rcases hsu : step.setup c s with ⟨c1, s1⟩ | ⟨c1, s1⟩ <;> simp only [hsu]
  · rcases hex : step.expect c1 s1 with ⟨c2, s2⟩ | ⟨c2, s2⟩ <;> simp only [hex]
    · unfold runStepRest
      rcases hvr : step.verify (hookCtx (step.act c2 s2)) (hookSt (step.act c2 s2))
        with ⟨c4, s4⟩ | ⟨c4, s4⟩ <;> simp only [hvr]
      · obtain ⟨c5, s5, trD, hd, -⟩ := stepDtor_some hv ht i c4 s4
        rw [hd]
        simp
      · obtain ⟨c5, s5, trD, hd, -⟩ := stepDtor_some hv ht i c4 s4
        rw [hd]
        simp
    · obtain ⟨c5, s5, trD, hd, -⟩ := stepDtor_some hv ht i c2 s2
      rw [hd]
      simp
  · simp

/-- A step loop over never-throwing Verify/Teardown hooks never aborts. -/
lemma runLoop_noAbort {C : Type} (l : List (StepDef C × StepState)) (i : Nat)
    (c : C) (rep : ScenarioReport)
    (hsteps : ∀ p ∈ l, NeverThrows p.1.verify ∧ NeverThrows p.1.teardown) :
    (runLoop i c rep l).exit ≠ .aborted := by
  induction l generalizing i c rep with
  | nil => simp [runLoop]
  | cons p rest ih =>
    obtain ⟨step, s⟩ := p
    obtain ⟨hv, ht⟩ := hsteps (step, s) (by simp)
    have hrest : ∀ q ∈ rest, NeverThrows q.1.verify ∧ NeverThrows q.1.teardown :=
      fun q hq => hsteps q (by simp [hq])
    by_cases hf : rep.requiredStepFailure = true
    · rw [runLoop_omit ((step, s) :: rest) i c rep hf]
      simp
    · have hf' : rep.requiredStepFailure = false := by rwa [Bool.not_eq_true] at hf
      simp only [runLoop, hf', Bool.false_eq_true, if_false]
      rcases hex : (runStepUnprotected step i c s rep).exit with ⟨b, dt, vd⟩ | _ | _ <;>
        simp only [hex]
      · exact ih (i + 1) (runStepUnprotected step i c s rep).ctx
          (runStepUnprotected step i c s rep).rep hrest
      · simp
      · exact absurd hex (runStep_noAbort hv ht i c s rep)

/-- C4 (counterexample to the claim as stated): the claim quantifies over all
hook behaviours, including throwing ones.  For a scenario with no steps whose
own Teardown throws, ~ScenarioSetup (an implicitly noexcept destructor,
AccTest.h:283-285) lets the exception escape a noexcept function, so the
process is terminated: Run() does not return at all, and no report can be
retrieved. -/
theorem C4_counterexample :
    run c4Scen pInit = .aborted [.scenSetup] := rfl

/-- C4 (amended): provided the hooks that the RAII destructors invoke
(scenario Teardown, each step's Teardown and its fallback-callable Verify) do
not throw, Run() always returns normally; an error raised in the scenario's
own Setup() yields ExceptionInTestProcedure = true over an otherwise zeroed
report (no destructor runs for a throwing guard constructor), and an error
escaping step execution is caught at the run boundary and recorded as
ExceptionInTestProcedure = true. -/
theorem C4_run_returns {C : Type} (scen : ScenarioDef C) (st : ScenState C)
    (htd : ScenNeverThrows scen.teardown)
    (hsteps : ∀ step ∈ scen.steps, NeverThrows step.verify ∧ NeverThrows step.teardown) :
    (∃ st' tr, run scen st = .done st' tr)
    ∧ (∀ c1, scen.setup st.ctx = .exn c1 →
        run scen st = .done ⟨c1, st.stepStates,
            updateReport scen
              { initReport scen st.report with exceptionInTestProcedure := true }⟩
          [.scenSetupThrew]
        ∧ (updateReport scen
            { initReport scen st.report with
              exceptionInTestProcedure := true }).exceptionInTestProcedure = true
        ∧ (updateReport scen
            { initReport scen st.report with
              exceptionInTestProcedure := true }).passedSteps = []
        ∧ (updateReport scen
            { initReport scen st.report with
              exceptionInTestProcedure := true }).failedSteps = []
        ∧ (updateReport scen
            { initReport scen st.report with
              exceptionInTestProcedure := true }).omittedSteps = [])
    ∧ (∀ c1, scen.setup st.ctx = .ok c1 →
        (runLoop 0 c1 (initReport scen st.report)
            (scen.steps.zip st.stepStates)).exit = .escaped →
        ∃ st' tr, run scen st = .done st' tr
          ∧ st'.report.exceptionInTestProcedure = true) := by
  have hzip : ∀ p ∈ scen.steps.zip st.stepStates,
      NeverThrows p.1.verify ∧ NeverThrows p.1.teardown := by
    intro p hp
    exact hsteps p.1 (List.of_mem_zip hp).1
  refine ⟨?_, ?_, ?_⟩
  · unfold run
    rcases hsu : scen.setup st.ctx with ⟨c1⟩ | ⟨c1⟩ <;> simp only [hsu]
    · rcases hle : (runLoop 0 c1 (initReport scen st.report)
          (scen.steps.zip st.stepStates)).exit with _ | _ | _ <;> simp only [hle]
      · obtain ⟨c3, htd'⟩ := htd (runLoop 0 c1 (initReport scen st.report)
          (scen.steps.zip st.stepStates)).ctx
        rw [htd']
        exact ⟨_, _, rfl⟩
      · obtain ⟨c3, htd'⟩ := htd (runLoop 0 c1 (initReport scen st.report)
          (scen.steps.zip st.stepStates)).ctx
        rw [htd']
        exact ⟨_, _, rfl⟩
      · exact absurd hle (runLoop_noAbort _ 0 c1 _ hzip)
    · exact ⟨_, _, rfl⟩
  · intro c1 hsu
    unfold run
    rw [hsu]
    exact ⟨rfl, rfl, rfl, rfl, rfl⟩
  · intro c1 hsu hesc
    unfold run
    rw [hsu]
    simp only [hesc]
    obtain ⟨c3, htd'⟩ := htd (runLoop 0 c1 (initReport scen st.report)
      (scen.steps.zip st.stepStates)).ctx
    rw [htd']
    exact ⟨_, _, rfl, rfl⟩

/-- Witness for C4 at the empty default scenario. -/
theorem C4_run_returns_witness :
    (∃ st' tr, run pScen pInit = .done st' tr)
    ∧ (∀ c1, pScen.setup pInit.ctx = .exn c1 →
        run pScen pInit = .done ⟨c1, pInit.stepStates,
            updateReport pScen
              { initReport pScen pInit.report with exceptionInTestProcedure := true }⟩
          [.scenSetupThrew]
        ∧ (updateReport pScen
            { initReport pScen pInit.report with
              exceptionInTestProcedure := true }).exceptionInTestProcedure = true
        ∧ (updateReport pScen
            { initReport pScen pInit.report with
              exceptionInTestProcedure := true }).passedSteps = []
        ∧ (updateReport pScen
            { initReport pScen pInit.report with
              exceptionInTestProcedure := true }).failedSteps = []
        ∧ (updateReport pScen
            { initReport pScen pInit.report with
              exceptionInTestProcedure := true }).omittedSteps = [])
    ∧ (∀ c1, pScen.setup pInit.ctx = .ok c1 →
        (runLoop 0 c1 (initReport pScen pInit.report)
            (pScen.steps.zip pInit.stepStates)).exit = .escaped →
        ∃ st' tr, run pScen pInit = .done st' tr
          ∧ st'.report.exceptionInTestProcedure = true) :=
  C4_run_returns pScen pInit (fun c => ⟨c, rfl⟩) (by simp [pScen])

end ProTest

namespace ProTest

/- ## C6: Teardown pairing and the scope-exit fallback -/

/-- Number of occurrences of an event in a trace. -/
def countEv (e : Ev) : List Ev → Nat
  | [] => 0
  | x :: xs => (if x = e then 1 else 0) + countEv e xs

lemma countEv_append (e : Ev) (l₁ l₂ : List Ev) :
    countEv e (l₁ ++ l₂) = countEv e l₁ + countEv e l₂ := by
  induction l₁ with
  | nil => simp [countEv]
  | cons x xs ih =>
    show (if x = e then 1 else 0) + countEv e (xs ++ l₂)
      = (if x = e then 1 else 0) + countEv e xs + countEv e l₂
    rw [ih]
    omega

lemma countEv_eq_zero {e : Ev} {l : List Ev} (h : e ∉ l) : countEv e l = 0 := by
  induction l with
  | nil => rfl
  | cons x xs ih =>
    have hx : ¬ x = e := fun hc => h (hc ▸ List.mem_cons_self x xs)
    simp only [countEv, hx, if_false, Nat.zero_add]
    exact ih (fun hc => h (List.mem_cons_of_mem x hc))

/-- Step-level events belonging to step position i. -/
def stepEv (i : Nat) : Ev → Bool
  | .scenSetup => false
  | .scenSetupThrew => false
  | .scenTeardown => false
  | .setup j => j == i
  | .setupThrew j => j == i
  | .expect j => j == i
  | .act j => j == i
  | .verify j => j == i
  | .teardown j => j == i
  | .record j _ => j == i
  | .recordOmit j => j == i

/-- The trace of a destructor body holds exactly the fallback Verify (when
unverified) and the Teardown of step i. -/
lemma stepDtor_tr {C : Type} {step : StepDef C} {i : Nat} {c : C} {s : StepState}
    {c' : C} {s' : StepState} {trD : List Ev}
    (h : stepDtor step i c s = some (c', s', trD)) :
    trD = [Ev.teardown i] ∨ trD = [Ev.verify i, Ev.teardown i] := by
  unfold stepDtor at h
  cases hiv : s.isVerified <;>
    simp only [hiv, Bool.false_eq_true, if_false, if_true] at h
  · rcases hv : step.verify c s with ⟨cv, sv⟩ | ⟨cv, sv⟩ <;> simp only [hv] at h
    · rcases ht : step.teardown cv sv with ⟨ct, st2⟩ | ⟨ct, st2⟩ <;>
        simp only [ht] at h
      · simp only [Option.some.injEq, Prod.mk.injEq] at h
        exact Or.inr h.2.2.symm
      · exact absurd h (by simp)
    · exact absurd h (by simp)
  · rcases ht : step.teardown c s with ⟨ct, st2⟩ | ⟨ct, st2⟩ <;>
      simp only [ht] at h
    · simp only [Option.some.injEq, Prod.mk.injEq] at h
      exact Or.inl h.2.2.symm
    · exact absurd h (by simp)

/-- Every event in the trace of one step execution is a step-level event of
that position: a step run never emits scenario-level events, nor events of
another position. -/
lemma runStep_tr_stepEv {C : Type} (step : StepDef C) (i : Nat) (c : C)
    (s : StepState) (rep : ScenarioReport) :
    ∀ e ∈ (runStepUnprotected step i c s rep).tr, stepEv i e = true := by
  have hdtor : ∀ (c0 : C) (s0 : StepState) (c1 : C) (s1 : StepState) (trD : List Ev),
      stepDtor step i c0 s0 = some (c1, s1, trD) →
      ∀ e ∈ trD, stepEv i e = true := by
    intro c0 s0 c1 s1 trD hd e he
    rcases stepDtor_tr hd with h' | h' <;> subst h' <;> simp at he
    · subst he
      simp [stepEv]
    · rcases he with rfl | rfl <;> simp [stepEv]
  unfold runStepUnprotected
  rcases hsu : step.setup c s with ⟨c1, s1⟩ | ⟨c1, s1⟩ <;> simp only [hsu]
  · rcases hex : step.expect c1 s1 with ⟨c2, s2⟩ | ⟨c2, s2⟩ <;> simp only [hex]
    · unfold runStepRest
      rcases hvr : step.verify (hookCtx (step.act c2 s2)) (hookSt (step.act c2 s2))
        with ⟨c4, s4⟩ | ⟨c4, s4⟩ <;> simp only [hvr]
      · rcases hd : stepDtor step i c4 s4 with _ | ⟨⟨c5, s5, trD⟩⟩ <;> simp only [hd]
        · intro e he
          simp at he
          rcases he with rfl | rfl | rfl | rfl | rfl <;> simp [stepEv]
        · intro e he
          simp at he
          rcases he with rfl | rfl | rfl | rfl | rfl | he
          · simp [stepEv]
          · simp [stepEv]
          · simp [stepEv]
          · simp [stepEv]
          · simp [stepEv]
          · exact hdtor c4 s4 c5 s5 trD hd e he
      · rcases hd : stepDtor step i c4 s4 with _ | ⟨⟨c5, s5, trD⟩⟩ <;> simp only [hd]
        · intro e he
          simp at he
          rcases he with rfl | rfl | rfl | rfl <;> simp [stepEv]
        · intro e he
          simp at he
          rcases he with rfl | rfl | rfl | rfl | he
          · simp [stepEv]
          · simp [stepEv]
          · simp [stepEv]
          · simp [stepEv]
          · exact hdtor c4 s4 c5 s5 trD hd e he
    · rcases hd : stepDtor step i c2 s2 with _ | ⟨⟨c3, s3, trD⟩⟩ <;> simp only [hd]
      · intro e he
        simp at he
        rcases he with rfl | rfl <;> simp [stepEv]
      · intro e he
        simp at he
        rcases he with rfl | rfl | he
        · simp [stepEv]
        · simp [stepEv]
        · exact hdtor c2 s2 c3 s3 trD hd e he
  · intro e he
    simp at he
    subst he
    simp [stepEv]

end ProTest

namespace ProTest

/-- Scenario-level events never occur in a step trace. -/
lemma runStep_count_scen {C : Type} (step : StepDef C) (i : Nat) (c : C)
    (s : StepState) (rep : ScenarioReport) :
    countEv Ev.scenTeardown (runStepUnprotected step i c s rep).tr = 0
    ∧ countEv Ev.scenSetup (runStepUnprotected step i c s rep).tr = 0 := by
  refine ⟨countEv_eq_zero fun hm => ?_, countEv_eq_zero fun hm => ?_⟩
  · have := runStep_tr_stepEv step i c s rep _ hm
    simp [stepEv] at this
  · have := runStep_tr_stepEv step i c s rep _ hm
    simp [stepEv] at this

/-- Setup/Teardown events of another position never occur in a step trace. -/
lemma runStep_count_ne {C : Type} (step : StepDef C) {i j : Nat} (hne : ¬ j = i)
    (c : C) (s : StepState) (rep : ScenarioReport) :
    countEv (Ev.teardown j) (runStepUnprotected step i c s rep).tr = 0
    ∧ countEv (Ev.setup j) (runStepUnprotected step i c s rep).tr = 0 := by
  refine ⟨countEv_eq_zero fun hm => ?_, countEv_eq_zero fun hm => ?_⟩
  · have := runStep_tr_stepEv step i c s rep _ hm
    simp [stepEv] at this
    exact hne this
  · have := runStep_tr_stepEv step i c s rep _ hm
    simp [stepEv] at this
    exact hne this

/-- Under never-throwing Verify/Teardown, one step execution emits exactly as
many Teardown events as completed-Setup events (one each when Setup completed,
none when it threw), on every exit path. -/
lemma runStep_count_guarded {C : Type} {step : StepDef C}
    (hv : NeverThrows step.verify) (ht : NeverThrows step.teardown)
    (i : Nat) (c : C) (s : StepState) (rep : ScenarioReport) :
    countEv (Ev.teardown i) (runStepUnprotected step i c s rep).tr
      = countEv (Ev.setup i) (runStepUnprotected step i c s rep).tr := by
  unfold runStepUnprotected
  rcases hsu : step.setup c s with ⟨c1, s1⟩ | ⟨c1, s1⟩ <;> simp only [hsu]
  · rcases hex : step.expect c1 s1 with ⟨c2, s2⟩ | ⟨c2, s2⟩ <;> simp only [hex]
    · unfold runStepRest
      rcases hvr : step.verify (hookCtx (step.act c2 s2)) (hookSt (step.act c2 s2))
        with ⟨c4, s4⟩ | ⟨c4, s4⟩ <;> simp only [hvr]
      · obtain ⟨c5, s5, trD, hd, htr⟩ := stepDtor_some hv ht i c4 s4
        rw [hd]
        subst htr
        by_cases hiv : s4.isVerified = true <;>
          simp [hiv, countEv, countEv_append]
      · obtain ⟨cv, sv, hv'⟩ := hv (hookCtx (step.act c2 s2)) (hookSt (step.act c2 s2))
        rw [hv'] at hvr
        exact absurd hvr (by simp)
    · obtain ⟨c3, s3, trD, hd, htr⟩ := stepDtor_some hv ht i c2 s2
      rw [hd]
      subst htr
      by_cases hiv : s2.isVerified = true <;>
        simp [hiv, countEv, countEv_append]
  · simp [countEv]

lemma omitEvents_count (e : Ev) (h : ∀ k, e ≠ Ev.recordOmit k) (i n : Nat) :
    countEv e (omitEvents i n) = 0 := by
  induction n generalizing i with
  | zero => rfl
  | succ m ih =>
    have hx : ¬ (Ev.recordOmit i = e) := fun hc => h i hc.symm
    simp [omitEvents, countEv, hx, ih (i + 1)]

/-- Scenario-level events never occur in a step-loop trace. -/
lemma runLoop_count_scen {C : Type} (l : List (StepDef C × StepState)) (i : Nat)
    (c : C) (rep : ScenarioReport) :
    countEv Ev.scenTeardown (runLoop i c rep l).tr = 0
    ∧ countEv Ev.scenSetup (runLoop i c rep l).tr = 0 := by
  induction l generalizing i c rep with
  | nil => exact ⟨rfl, rfl⟩
  | cons p rest ih =>
    obtain ⟨step, s⟩ := p
    by_cases hf : rep.requiredStepFailure = true
    · simp only [runLoop, hf, if_true]
      obtain ⟨ih1, ih2⟩ := ih (i + 1) c
        { rep with
          requiredStepFailure := true
          omittedSteps := rep.omittedSteps ++ [⟨step.name, step.description, []⟩] }
      constructor <;> simp [countEv, ih1, ih2]
    · have hf' : rep.requiredStepFailure = false := by rwa [Bool.not_eq_true] at hf
      simp only [runLoop, hf', Bool.false_eq_true, if_false]
      rcases hex : (runStepUnprotected step i c s rep).exit with ⟨b, dt, vd⟩ | _ | _ <;>
        simp only [hex]
      · obtain ⟨h1, h2⟩ := runStep_count_scen step i c s rep
        obtain ⟨ih1, ih2⟩ := ih (i + 1) (runStepUnprotected step i c s rep).ctx
          (runStepUnprotected step i c s rep).rep
        constructor <;> simp [countEv_append, h1, h2, ih1, ih2]
      · exact runStep_count_scen step i c s rep
      · exact runStep_count_scen step i c s rep

/-- Under never-throwing Verify/Teardown hooks the whole step loop pairs
Teardown events with completed Setup events at every position. -/
lemma runLoop_count {C : Type} (l : List (StepDef C × StepState)) (i : Nat)
    (c : C) (rep : ScenarioReport)
    (hsteps : ∀ p ∈ l, NeverThrows p.1.verify ∧ NeverThrows p.1.teardown) :
    ∀ j, countEv (Ev.teardown j) (runLoop i c rep l).tr
        = countEv (Ev.setup j) (runLoop i c rep l).tr := by
  induction l generalizing i c rep with
  | nil => intro j; rfl
  | cons p rest ih =>
    obtain ⟨step, s⟩ := p
    obtain ⟨hv, ht⟩ := hsteps (step, s) (by simp)
    have hrest : ∀ q ∈ rest, NeverThrows q.1.verify ∧ NeverThrows q.1.teardown :=
      fun q hq => hsteps q (by simp [hq])
    intro j
    by_cases hf : rep.requiredStepFailure = true
    · rw [runLoop_omit ((step, s) :: rest) i c rep hf]
      have hz1 := omitEvents_count (Ev.teardown j) (by intro k; simp) i
        ((step, s) :: rest).length
      have hz2 := omitEvents_count (Ev.setup j) (by intro k; simp) i
        ((step, s) :: rest).length
      simp only [List.length_cons] at hz1 hz2
      simp [hz1, hz2]
    · have hf' : rep.requiredStepFailure = false := by rwa [Bool.not_eq_true] at hf
      simp only [runLoop, hf', Bool.false_eq_true, if_false]
      rcases hex : (runStepUnprotected step i c s rep).exit with ⟨b, dt, vd⟩ | _ | _ <;>
        simp only [hex]
      · have hihj := ih (i + 1) (runStepUnprotected step i c s rep).ctx
          (runStepUnprotected step i c s rep).rep hrest j
        by_cases hji : j = i
        · subst hji
          have hg := runStep_count_guarded hv ht j c s rep
          simp [countEv_append, hg, hihj]
        · obtain ⟨hz1, hz2⟩ := runStep_count_ne step hji c s rep
          simp [countEv_append, hz1, hz2, hihj]
      · by_cases hji : j = i
        · subst hji
          exact runStep_count_guarded hv ht j c s rep
        · obtain ⟨hz1, hz2⟩ := runStep_count_ne step hji c s rep
          rw [hz1, hz2]
      · exact absurd hex (runStep_noAbort hv ht i c s rep)

end ProTest

namespace ProTest

/-- C6 (counterexample to the claim as stated): the claim promises Teardown
exactly once per matching Setup on every exit path.  With a step whose own
Teardown throws, the throw escapes the implicitly noexcept ~StepSetup
destructor, terminating the process: the scenario's Setup completed
(scenSetup is in the trace) but its Teardown never runs, and the run has no
normal exit at all. -/
theorem C6_counterexample :
    run tdScen tdInit = .aborted
      [.scenSetup, .setup 0, .expect 0, .act 0, .verify 0, .record 0 true] := rfl

/-- C6 (amended): provided the destructor-invoked hooks (scenario Teardown,
each step's Teardown and Verify) never throw, every run returns, its trace
pairs the scenario Teardown with the completed scenario Setup and, at every
step position, Teardown events with completed Setup events, on every exit
path; and the ~StepSetup destructor body invokes Verify as a fallback exactly
when the step is unverified at scope exit, followed by Teardown. -/
theorem C6_teardown_pairing {C : Type} (scen : ScenarioDef C) (st : ScenState C)
    (htd : ScenNeverThrows scen.teardown)
    (hsteps : ∀ step ∈ scen.steps, NeverThrows step.verify ∧ NeverThrows step.teardown) :
    (∃ st' tr, run scen st = .done st' tr
      ∧ countEv Ev.scenTeardown tr = countEv Ev.scenSetup tr
      ∧ ∀ j, countEv (Ev.teardown j) tr = countEv (Ev.setup j) tr)
    ∧ (∀ step : StepDef C, step ∈ scen.steps → ∀ i c s,
        (s.isVerified = true →
          ∃ c' s', stepDtor step i c s = some (c', s', [Ev.teardown i]))
        ∧ (s.isVerified = false →
          ∃ c' s', stepDtor step i c s = some (c', s', [Ev.verify i, Ev.teardown i]))) := by
  have hzip : ∀ p ∈ scen.steps.zip st.stepStates,
      NeverThrows p.1.verify ∧ NeverThrows p.1.teardown :=
    fun p hp => hsteps p.1 (List.of_mem_zip hp).1
  constructor
  · unfold run
    rcases hsu : scen.setup st.ctx with ⟨c1⟩ | ⟨c1⟩ <;> simp only [hsu]
    · have hloopScen := runLoop_count_scen (scen.steps.zip st.stepStates) 0 c1
        (initReport scen st.report)
      have hloopCnt := runLoop_count (scen.steps.zip st.stepStates) 0 c1
        (initReport scen st.report) hzip
      rcases hle : (runLoop 0 c1 (initReport scen st.report)
          (scen.steps.zip st.stepStates)).exit with _ | _ | _ <;> simp only [hle]
      · obtain ⟨c3, htd'⟩ := htd (runLoop 0 c1 (initReport scen st.report)
          (scen.steps.zip st.stepStates)).ctx
        rw [htd']
        refine ⟨_, _, rfl, ?_, ?_⟩
        · simp [countEv, countEv_append, hloopScen.1, hloopScen.2]
        · intro j
          simp [countEv, countEv_append, hloopCnt j]
      · obtain ⟨c3, htd'⟩ := htd (runLoop 0 c1 (initReport scen st.report)
          (scen.steps.zip st.stepStates)).ctx
        rw [htd']
        refine ⟨_, _, rfl, ?_, ?_⟩
        · simp [countEv, countEv_append, hloopScen.1, hloopScen.2]
        · intro j
          simp [countEv, countEv_append, hloopCnt j]
      · exact absurd hle (runLoop_noAbort _ 0 c1 _ hzip)
    · exact ⟨_, _, rfl, rfl, fun j => rfl⟩
  · intro step hstep i c s
    obtain ⟨hv, ht⟩ := hsteps step hstep
    obtain ⟨c', s', trD, hd, htr⟩ := stepDtor_some hv ht i c s
    constructor
    · intro hiv
      refine ⟨c', s', ?_⟩
      rw [hd, htr, hiv]
      simp
    · intro hiv
      refine ⟨c', s', ?_⟩
      rw [hd, htr, hiv]
      simp

/-- Witness for C6 at the empty default scenario. -/
theorem C6_teardown_pairing_witness :
    (∃ st' tr, run pScen pInit = .done st' tr
      ∧ countEv Ev.scenTeardown tr = countEv Ev.scenSetup tr
      ∧ ∀ j, countEv (Ev.teardown j) tr = countEv (Ev.setup j) tr)
    ∧ (∀ step : StepDef Unit, step ∈ pScen.steps → ∀ i c s,
        (s.isVerified = true →
          ∃ c' s', stepDtor step i c s = some (c', s', [Ev.teardown i]))
        ∧ (s.isVerified = false →
          ∃ c' s', stepDtor step i c s = some (c', s', [Ev.verify i, Ev.teardown i]))) :=
  C6_teardown_pairing pScen pInit (fun c => ⟨c, rfl⟩) (by simp [pScen])

end ProTest

namespace ProTest

/- ## C9: a step that never calls Check is recorded as failed -/

/-- `sameCheck t u`: the state u agrees with t on all Check-related fields
(m_Passed, m_IsVerified, m_CheckCounter, m_CheckOutputs); the meaning of a
hook that never calls Check. -/
def sameCheck (t u : StepState) : Prop :=
  u.passed = t.passed ∧ u.isVerified = t.isVerified
    ∧ u.checkCounter = t.checkCounter ∧ u.checkOutputs = t.checkOutputs

lemma sameCheck_trans {a b c : StepState} (h1 : sameCheck a b)
    (h2 : sameCheck b c) : sameCheck a c :=
  ⟨h2.1.trans h1.1, h2.2.1.trans h1.2.1, h2.2.2.1.trans h1.2.2.1,
    h2.2.2.2.trans h1.2.2.2⟩

/-- C9: for a fresh executed step none of whose hooks calls Check (and whose
Act meets the throw expectation), m_Passed keeps its false default, so the
step is recorded as failed right after the explicit Verify() call of
AccTest.h:357; afterwards, since the step is still unverified, the ~StepSetup
fallback invokes Verify() a second time before Teardown, with no effect on
the already pushed record: the trace shows record i false strictly before the
second verify i, and the report got exactly one failed entry. -/
theorem C9_unchecked_step_fails {C : Type} (step : StepDef C) (i : Nat) (c : C)
    (s : StepState) (rep : ScenarioReport)
    (hp : s.passed = false) (hverif : s.isVerified = false)
    (hsetup : ∀ c0 t, ∃ c1 u, step.setup c0 t = .ok c1 u ∧ sameCheck t u)
    (hexpect : ∀ c0 t, ∃ c1 u, step.expect c0 t = .ok c1 u ∧ sameCheck t u)
    (hact : ∀ c0 t, hookThrew (step.act c0 t) = step.mustThrow
        ∧ sameCheck t (hookSt (step.act c0 t)))
    (hverify : ∀ c0 t, ∃ c1 u, step.verify c0 t = .ok c1 u ∧ sameCheck t u)
    (hteardown : ∀ c0 t, ∃ c1 u, step.teardown c0 t = .ok c1 u) :
    (runStepUnprotected step i c s rep).exit = .recorded false step.mustThrow false
    ∧ (runStepUnprotected step i c s rep).tr
        = [.setup i, .expect i, .act i, .verify i, .record i false,
           .verify i, .teardown i]
    ∧ (runStepUnprotected step i c s rep).rep.failedSteps
        = rep.failedSteps ++ [⟨step.name, step.description, s.checkOutputs⟩]
    ∧ (runStepUnprotected step i c s rep).rep.passedSteps = rep.passedSteps := by
  obtain ⟨c1, s1, hsu, hsc1⟩ := hsetup c s
  obtain ⟨c2, s2, hex, hsc2⟩ := hexpect c1 s1
  obtain ⟨hat, hsc3⟩ := hact c2 s2
  obtain ⟨c4, s4, hvr, hsc4⟩ := hverify (hookCtx (step.act c2 s2))
    (hookSt (step.act c2 s2))
  have hs4 : sameCheck s s4 :=
    sameCheck_trans (sameCheck_trans (sameCheck_trans hsc1 hsc2) hsc3) hsc4
  have hp4 : s4.passed = false := hs4.1.trans hp
  have hv4 : s4.isVerified = false := hs4.2.1.trans hverif
  have ho4 : s4.checkOutputs = s.checkOutputs := hs4.2.2.2
  obtain ⟨c5, s5, hvr2, hsc5⟩ := hverify c4 s4
  obtain ⟨c6, s6, htd⟩ := hteardown c5 s5
  have hdtor : stepDtor step i c4 s4 = some (c6, s6, [Ev.verify i, Ev.teardown i]) := by
    unfold stepDtor
    rw [hv4]
    simp [hvr2, htd]
  have hb : ((hookThrew (step.act c2 s2) == step.mustThrow) && s4.passed) = false := by
    rw [hat, hp4]
    simp
  unfold runStepUnprotected
  simp only [hsu]
  simp only [hex]
  unfold runStepRest
  simp only [hvr]
  simp only [hdtor, hb]
  refine ⟨?_, by simp, ?_, ?_⟩
  · rw [hat, hp4]
  · simp [recordStep, ho4]
  · simp [recordStep]

/-- A step whose Verify does nothing at all (never calls Check). -/
def w9Step : StepDef Unit :=
  { name := "V", description := "v", verify := fun c s => .ok c s }

/-- Witness for C9 at w9Step starting from a fresh state. -/
theorem C9_unchecked_step_fails_witness :
    (runStepUnprotected w9Step 0 () {} {}).exit = .recorded false w9Step.mustThrow false
    ∧ (runStepUnprotected w9Step 0 () {} {}).tr
        = [.setup 0, .expect 0, .act 0, .verify 0, .record 0 false,
           .verify 0, .teardown 0]
    ∧ (runStepUnprotected w9Step 0 () {} {}).rep.failedSteps
        = ({} : ScenarioReport).failedSteps
          ++ [⟨w9Step.name, w9Step.description, ({} : StepState).checkOutputs⟩]
    ∧ (runStepUnprotected w9Step 0 () {} {}).rep.passedSteps
        = ({} : ScenarioReport).passedSteps :=
  C9_unchecked_step_fails w9Step 0 () {} {} rfl rfl
    (fun c0 t => ⟨c0, t, rfl, rfl, rfl, rfl, rfl⟩)
    (fun c0 t => ⟨c0, t, rfl, rfl, rfl, rfl, rfl⟩)
    (fun c0 t => ⟨rfl, rfl, rfl, rfl, rfl⟩)
    (fun c0 t => ⟨c0, t, rfl, rfl, rfl, rfl, rfl⟩)
    (fun c0 t => ⟨c0, t, rfl⟩)

end ProTest

namespace ProTest

/- ## C10: step run-time state persists across runs -/

lemma sameCheck_refl (s : StepState) : sameCheck s s := ⟨rfl, rfl, rfl, rfl⟩

/-- A hook that preserves all Check-related fields of the step state (its
effect never goes through Check). -/
def PreservesCheck {C : Type} (h : Hook C) : Prop :=
  ∀ c s, sameCheck s (hookSt (h c s))

/-- The destructor body preserves the Check fields when Verify and Teardown
do. -/
lemma stepDtor_frame {C : Type} {step : StepDef C}
    (h4 : PreservesCheck step.verify) (h5 : PreservesCheck step.teardown)
    (i : Nat) (c : C) (s : StepState) :
    ∀ c' s' trD, stepDtor step i c s = some (c', s', trD) → sameCheck s s' := by
  intro c' s' trD h
  unfold stepDtor at h
  cases hiv : s.isVerified <;>
    simp only [hiv, Bool.false_eq_true, if_false, if_true] at h
  · rcases hv : step.verify c s with ⟨cv, sv⟩ | ⟨cv, sv⟩ <;> simp only [hv] at h
    · rcases ht : step.teardown cv sv with ⟨ct, st2⟩ | ⟨ct, st2⟩ <;>
        simp only [ht] at h
      · simp only [Option.some.injEq, Prod.mk.injEq] at h
        obtain ⟨-, hs, -⟩ := h
        subst hs
        have hscv : sameCheck s sv := by
          have := h4 c s
          rwa [hv] at this
        have hsct : sameCheck sv st2 := by
          have := h5 cv sv
          rwa [ht] at this
        exact sameCheck_trans hscv hsct
      · exact absurd h (by simp)
    · exact absurd h (by simp)
  · rcases ht : step.teardown c s with ⟨ct, st2⟩ | ⟨ct, st2⟩ <;>
      simp only [ht] at h
    · simp only [Option.some.injEq, Prod.mk.injEq] at h
      obtain ⟨-, hs, -⟩ := h
      subst hs
      have := h5 c s
      rwa [ht] at this
    · exact absurd h (by simp)

/-- A whole step execution preserves the Check fields when all five hooks
do: the orchestrator itself never resets m_Passed, m_IsVerified,
m_CheckCounter or m_CheckOutputs. -/
lemma runStep_frame {C : Type} {step : StepDef C}
    (h1 : PreservesCheck step.setup) (h2 : PreservesCheck step.expect)
    (h3 : PreservesCheck step.act) (h4 : PreservesCheck step.verify)
    (h5 : PreservesCheck step.teardown)
    (i : Nat) (c : C) (s : StepState) (rep : ScenarioReport) :
    sameCheck s (runStepUnprotected step i c s rep).st := by
  unfold runStepUnprotected
  rcases hsu : step.setup c s with ⟨c1, s1⟩ | ⟨c1, s1⟩ <;> simp only [hsu]
  · have hsc1 : sameCheck s s1 := by
      have := h1 c s
      rwa [hsu] at this
    rcases hex : step.expect c1 s1 with ⟨c2, s2⟩ | ⟨c2, s2⟩ <;> simp only [hex]
    · have hsc2 : sameCheck s s2 := by
        have := h2 c1 s1
        rw [hex] at this
        exact sameCheck_trans hsc1 this
      have hsc3 : sameCheck s (hookSt (step.act c2 s2)) :=
        sameCheck_trans hsc2 (h3 c2 s2)
      unfold runStepRest
      rcases hvr : step.verify (hookCtx (step.act c2 s2)) (hookSt (step.act c2 s2))
        with ⟨c4, s4⟩ | ⟨c4, s4⟩ <;> simp only [hvr]
      · have hsc4 : sameCheck s s4 := by
          have := h4 (hookCtx (step.act c2 s2)) (hookSt (step.act c2 s2))
          rw [hvr] at this
          exact sameCheck_trans hsc3 this
        rcases hd : stepDtor step i c4 s4 with _ | ⟨⟨c5, s5, trD⟩⟩ <;> simp only [hd]
        · exact hsc4
        · exact sameCheck_trans hsc4 (stepDtor_frame h4 h5 i c4 s4 c5 s5 trD hd)
      · have hsc4 : sameCheck s s4 := by
          have := h4 (hookCtx (step.act c2 s2)) (hookSt (step.act c2 s2))
          rw [hvr] at this
          exact sameCheck_trans hsc3 this
        rcases hd : stepDtor step i c4 s4 with _ | ⟨⟨c5, s5, trD⟩⟩ <;> simp only [hd]
        · exact hsc4
        · exact sameCheck_trans hsc4 (stepDtor_frame h4 h5 i c4 s4 c5 s5 trD hd)
    · have hsc2 : sameCheck s s2 := by
        have := h2 c1 s1
        rw [hex] at this
        exact sameCheck_trans hsc1 this
      rcases hd : stepDtor step i c2 s2 with _ | ⟨⟨c3, s3, trD⟩⟩ <;> simp only [hd]
      · exact hsc2
      · exact sameCheck_trans hsc2 (stepDtor_frame h4 h5 i c2 s2 c3 s3 trD hd)
  · have := h1 c s
    rwa [hsu] at this

/-- The step loop preserves the Check fields of every position when all hooks
of every step do. -/
lemma runLoop_frame {C : Type} (l : List (StepDef C × StepState)) (i : Nat)
    (c : C) (rep : ScenarioReport)
    (hsteps : ∀ p ∈ l, PreservesCheck p.1.setup ∧ PreservesCheck p.1.expect
      ∧ PreservesCheck p.1.act ∧ PreservesCheck p.1.verify
      ∧ PreservesCheck p.1.teardown) :
    List.Forall₂ sameCheck (l.map Prod.snd) (runLoop i c rep l).sts := by
  induction l generalizing i c rep with
  | nil => simp [runLoop]
  | cons p rest ih =>
    obtain ⟨step, s⟩ := p
    obtain ⟨p1, p2, p3, p4, p5⟩ := hsteps (step, s) (by simp)
    have hrest : ∀ q ∈ rest, PreservesCheck q.1.setup ∧ PreservesCheck q.1.expect
        ∧ PreservesCheck q.1.act ∧ PreservesCheck q.1.verify
        ∧ PreservesCheck q.1.teardown :=
      fun q hq => hsteps q (by simp [hq])
    by_cases hf : rep.requiredStepFailure = true
    · rw [runLoop_omit ((step, s) :: rest) i c rep hf]
      exact List.forall₂_same.mpr (fun x _ => sameCheck_refl x)
    · have hf' : rep.requiredStepFailure = false := by rwa [Bool.not_eq_true] at hf
      simp only [runLoop, hf', Bool.false_eq_true, if_false, List.map_cons]
      rcases hex : (runStepUnprotected step i c s rep).exit with ⟨b, dt, vd⟩ | _ | _ <;>
        simp only [hex]
      · exact List.Forall₂.cons (runStep_frame p1 p2 p3 p4 p5 i c s rep)
          (ih (i + 1) (runStepUnprotected step i c s rep).ctx
            (runStepUnprotected step i c s rep).rep hrest)
      · exact List.Forall₂.cons (runStep_frame p1 p2 p3 p4 p5 i c s rep)
          (List.forall₂_same.mpr (fun x _ => sameCheck_refl x))
      · exact List.Forall₂.cons (runStep_frame p1 p2 p3 p4 p5 i c s rep)
          (List.forall₂_same.mpr (fun x _ => sameCheck_refl x))

/-- C10: no scenario operation resets a step's run-time state.  First
conjunct (frame): whenever every hook of every step leaves the Check fields
alone, a whole Run leaves every step's Check fields (m_Passed, m_IsVerified,
m_CheckCounter, m_CheckOutputs) exactly as they were: any change to them in a
real run comes from the step's own Check calls, never from the orchestrator;
InitializeReport clears only the report's lists (AccTest.h:315-321).
Remaining conjuncts: running persistScen twice shows the state persisting
across Run() invocations: the second run's failed-step report still carries
the first run's message under index 0, the new check lands at index 1 (the
counter continues), the verdict stays ANDed with the first run's, and the
report lists are rebuilt (exactly one failed entry), not accumulated. -/
theorem C10_step_state_persistence :
    (∀ (C : Type) (scen : ScenarioDef C) (st : ScenState C),
      st.stepStates.length = scen.steps.length →
      (∀ step ∈ scen.steps, PreservesCheck step.setup ∧ PreservesCheck step.expect
        ∧ PreservesCheck step.act ∧ PreservesCheck step.verify
        ∧ PreservesCheck step.teardown) →
      ∀ st' tr, run scen st = .done st' tr →
        List.Forall₂ sameCheck st.stepStates st'.stepStates)
    ∧ (afterRun persistScen perInit).stepStates.headI.checkOutputs = [(0, "m")]
    ∧ (afterRun persistScen (afterRun persistScen perInit)).stepStates.headI.checkOutputs
        = [(0, "m"), (1, "m")]
    ∧ (afterRun persistScen (afterRun persistScen perInit)).stepStates.headI.checkCounter = 2
    ∧ (afterRun persistScen (afterRun persistScen perInit)).stepStates.headI.passed = false
    ∧ (afterRun persistScen perInit).report.failedSteps = [⟨"S", "d", [(0, "m")]⟩]
    ∧ (afterRun persistScen (afterRun persistScen perInit)).report.failedSteps
        = [⟨"S", "d", [(0, "m"), (1, "m")]⟩]
    ∧ (afterRun persistScen (afterRun persistScen perInit)).report.numberOfFailed = 1 := by
  refine ⟨?_, rfl, rfl, rfl, rfl, rfl, rfl, rfl⟩
  intro C scen st hlen hpres st' tr h
  have hmap : (scen.steps.zip st.stepStates).map Prod.snd = st.stepStates :=
    List.map_snd_zip _ _ hlen.le
  have hzipPres : ∀ p ∈ scen.steps.zip st.stepStates,
      PreservesCheck p.1.setup ∧ PreservesCheck p.1.expect
      ∧ PreservesCheck p.1.act ∧ PreservesCheck p.1.verify
      ∧ PreservesCheck p.1.teardown :=
    fun p hp => hpres p.1 (List.of_mem_zip hp).1
  unfold run at h
  rcases hsu : scen.setup st.ctx with ⟨c1⟩ | ⟨c1⟩ <;> simp only [hsu] at h
  · rcases hle : (runLoop 0 c1 (initReport scen st.report)
        (scen.steps.zip st.stepStates)).exit with _ | _ | _ <;> simp only [hle] at h
    · rcases htd : scen.teardown (runLoop 0 c1 (initReport scen st.report)
          (scen.steps.zip st.stepStates)).ctx with ⟨c3⟩ | ⟨c3⟩ <;>
        simp only [htd] at h
      · injection h with h1 h2
        subst h1
        have := runLoop_frame (scen.steps.zip st.stepStates) 0 c1
          (initReport scen st.report) hzipPres
        rwa [hmap] at this
      · exact RunOut.noConfusion h
    · rcases htd : scen.teardown (runLoop 0 c1 (initReport scen st.report)
          (scen.steps.zip st.stepStates)).ctx with ⟨c3⟩ | ⟨c3⟩ <;>
        simp only [htd] at h
      · injection h with h1 h2
        subst h1
        have := runLoop_frame (scen.steps.zip st.stepStates) 0 c1
          (initReport scen st.report) hzipPres
        rwa [hmap] at this
      · exact RunOut.noConfusion h
    · exact RunOut.noConfusion h
  · injection h with h1 h2
    subst h1
    exact List.forall₂_same.mpr (fun x _ => sameCheck_refl x)

/-- A one-step scenario whose hooks never call Check. -/
def w10Scen : ScenarioDef Unit := { name := "W10", description := "w", steps := [w9Step] }

def w10Init : ScenState Unit := ⟨(), [{}], {}⟩

/-- Witness for the frame conjunct of C10 at w10Scen. -/
theorem C10_step_state_persistence_witness :
    List.Forall₂ sameCheck w10Init.stepStates (afterRun w10Scen w10Init).stepStates := by
  refine C10_step_state_persistence.1 Unit w10Scen w10Init rfl ?_
    (afterRun w10Scen w10Init)
    [.scenSetup, .setup 0, .expect 0, .act 0, .verify 0, .record 0 false,
     .verify 0, .teardown 0, .scenTeardown] rfl
  intro step hs
  simp [w10Scen] at hs
  subst hs
  exact ⟨fun c s => ⟨rfl, rfl, rfl, rfl⟩, fun c s => ⟨rfl, rfl, rfl, rfl⟩,
    fun c s => ⟨rfl, rfl, rfl, rfl⟩, fun c s => ⟨rfl, rfl, rfl, rfl⟩,
    fun c s => ⟨rfl, rfl, rfl, rfl⟩⟩

end ProTest
